import Mathlib

/-!
Verification of the ai-reasoning-hub paper-curation pipeline.

Shallow embedding of the repository's Python sources:
  * `app.py` (score-breakdown parsing and display),
  * `tools/summarize_papers.py` (selection, triage/summarize orchestration,
    digest extraction),
  * `tools/llm_summary.py` (provider adapter with tenacity retry; triage with
    Gemini-to-OpenAI fallback),
  * `tools/collect_weekly_papers.py` (feed ingestion with LIKE-based dedup).

Machine strings are modelled as Lean `String`/`List Char`; the SQLite store is
a list of rows; LLM backends and the network are explicit oracles passed as
functions, so every run of the pipeline is a pure, computable Lean function.
-/

namespace ReasoningHub

/-! ### Python / SQLite string primitives -/

/-- The whitespace set of Python's `str.strip()` (ASCII part):
space, tab, newline, carriage return, vertical tab, form feed. -/
def pyIsSpace (c : Char) : Bool :=
  c = ' ' || c = '\t' || c = '\n' || c = '\r' || c = '\x0b' || c = '\x0c'

/-- Strip characters satisfying `p` from both ends of a character list. -/
def stripWith (p : Char → Bool) (l : List Char) : List Char :=
  ((l.dropWhile p).reverse.dropWhile p).reverse

/-- Python `str.strip()` (no arguments): strip whitespace from both ends. -/
def pyStrip (s : String) : String :=
  ⟨stripWith pyIsSpace s.data⟩

/-- SQLite `TRIM(x)`: strips only the space character from both ends. -/
def sqlTrim (s : String) : String :=
  ⟨stripWith (fun c => c = ' ') s.data⟩

/-- `startsWith n h`: `n` is an initial segment of `h` (Python `str.startswith`). -/
def startsWith : List Char → List Char → Bool
  | [], _ => true
  | _ :: _, [] => false
  | p :: ps, c :: cs => p = c && startsWith ps cs

/-- `containsSub n h`: `n` occurs as a contiguous substring of `h`
(Python's `in` operator on strings). -/
def containsSub (n : List Char) : List Char → Bool
  | [] => n.isEmpty
  | c :: rest => startsWith n (c :: rest) || containsSub n rest

/-- Python `needle in hay` for strings. -/
def pyContains (needle hay : String) : Bool :=
  containsSub needle.data hay.data

/-- Python `str.upper()` (ASCII). -/
def pyUpper (s : String) : String :=
  ⟨s.data.map Char.toUpper⟩

/-- Python `str.lower()` (ASCII). -/
def pyLower (l : List Char) : List Char :=
  l.map Char.toLower

/-- Worker for `str.splitlines()`: splits on `\n`, `\r\n` and `\r`
(the universal-newline separators occurring in this repository's data),
with no trailing empty line. `acc` holds the current line reversed. -/
def splitlinesAux : List Char → List Char → List (List Char)
  | [], acc => if acc.isEmpty then [] else [acc.reverse]
  | '\r' :: '\n' :: rest, acc => acc.reverse :: splitlinesAux rest []
  | '\r' :: rest, acc => acc.reverse :: splitlinesAux rest []
  | '\n' :: rest, acc => acc.reverse :: splitlinesAux rest []
  | c :: rest, acc => splitlinesAux rest (c :: acc)

/-- Python `str.splitlines()`. -/
def splitlines (s : String) : List (List Char) :=
  splitlinesAux s.data []

/-! ### `tools/summarize_papers.py` — `extract_tldr` -/

/-- One stripped line starts the TLDR heading test of `extract_tldr`:
`low = l.lower().replace(";", "")` then
`low.startswith("# tldr") or low.startswith("## tldr")`. -/
def isTldrHeading (l : List Char) : Bool :=
  let low := (pyLower l).filter (fun c => c ≠ ';')
  startsWith "# tldr".data low || startsWith "## tldr".data low

/-- The inner loop `for j in range(i + 1, min(i + 6, len(lines)))`:
the first non-empty line among the next `n` lines, if any. -/
def firstNonblankWithin : Nat → List (List Char) → Option (List Char)
  | 0, _ => none
  | _, [] => none
  | Nat.succ n, l :: rest => if l.isEmpty then firstNonblankWithin n rest else some l

/-- The outer loop of `extract_tldr`: scan for a TLDR heading and return the
first non-empty line within the following five; when a heading has no
non-empty line in its window, scanning continues (the Python loop simply
does not `return`). -/
def findTldr : List (List Char) → Option (List Char)
  | [] => none
  | l :: rest =>
    if isTldrHeading l then
      match firstNonblankWithin 5 rest with
      | some t => some t
      | none => findTldr rest
    else findTldr rest

/-- Fallback loop of `extract_tldr`: the first non-empty line. -/
def firstNonblank : List (List Char) → Option (List Char)
  | [] => none
  | l :: rest => if l.isEmpty then firstNonblank rest else some l

/-- `lines = [l.strip() for l in markdown.splitlines()]`. -/
def linesOf (markdown : String) : List (List Char) :=
  (splitlines markdown).map (stripWith pyIsSpace)

/-- `extract_tldr` from `tools/summarize_papers.py`: return the first
non-empty line after a TLDR heading (untruncated), else the first non-empty
line of the document truncated to 280 characters, else the empty string. -/
def extract_tldr (markdown : String) : String :=
  let lines := linesOf markdown
  match findTldr lines with
  | some t => ⟨t⟩
  | none =>
    match firstNonblank lines with
    | some l => ⟨l.take 280⟩
    | none => ""

/-! ### `app.py` — score-breakdown parsing and display -/

/-- Split a character list at the first occurrence of `sep`
(Python `s.split(sep, 1)` when the result has two parts; `none` when
`sep` does not occur, i.e. Python's `sep in s` is false). -/
def splitOnce (sep : Char) : List Char → Option (List Char × List Char)
  | [] => none
  | c :: rest =>
    if c = sep then some ([], rest)
    else (splitOnce sep rest).map (fun p => (c :: p.1, p.2))

/-- Worker for Python `str.split(sep)` with a one-character separator:
empty parts are kept, and splitting the empty string yields one empty part. -/
def splitOnCharAux (sep : Char) : List Char → List Char → List (List Char)
  | [], acc => [acc.reverse]
  | c :: rest, acc =>
    if c = sep then acc.reverse :: splitOnCharAux sep rest []
    else splitOnCharAux sep rest (c :: acc)

/-- Python `str.split(sep)` for a one-character separator. -/
def splitOnChar (sep : Char) (l : List Char) : List (List Char) :=
  splitOnCharAux sep l []

/-- `parse_breakdown` from `app.py`: split on commas; for each part containing
a colon, split once at the colon and strip both sides. The Python dict is
modelled as the association list of insertions in order. -/
def parse_breakdown (breakdown : String) : List (String × String) :=
  (splitOnChar ',' breakdown.data).filterMap (fun kv =>
    (splitOnce ':' kv).map (fun p =>
      (⟨stripWith pyIsSpace p.1⟩, ⟨stripWith pyIsSpace p.2⟩)))

/-- Python dict lookup over the insertion list: the last insertion for a key
wins, as in `parts[k] = v`. -/
def dictGet (pairs : List (String × String)) (k : String) : Option String :=
  match pairs with
  | [] => none
  | (k0, v0) :: rest =>
    match dictGet rest k with
    | some v => some v
    | none => if k0 = k then some v0 else none

/-- `BREAKDOWN_MAX = {"Novelty": 3, "Impact": 4, "Results": 2, "Access": 1}`
with the `.get(label, 0)` default. -/
def BREAKDOWN_MAX (label : String) : Nat :=
  if label = "Novelty" then 3
  else if label = "Impact" then 4
  else if label = "Results" then 2
  else if label = "Access" then 1
  else 0

/-- The four labels displayed by the score block of `app.py`. -/
def breakdownLabels : List String :=
  ["Novelty", "Impact", "Results", "Access"]

def isDigit (c : Char) : Bool :=
  '0' ≤ c && c ≤ '9'

def digitsToNat (l : List Char) : Nat :=
  l.foldl (fun n c => n * 10 + (c.toNat - '0'.toNat)) 0

/-- Integer part of a Python decimal float literal (digits with an optional
single fractional part), as consumed by `int(float(v))`: truncation keeps the
digits before the dot. Returns `none` when `float(v)` raises `ValueError`.
The model covers plain decimal literals (no exponent, inf or nan). -/
def floatBodyToNat (l : List Char) : Option Nat :=
  match splitOnce '.' l with
  | none => if !l.isEmpty && l.all isDigit then some (digitsToNat l) else none
  | some (ip, fp) =>
    if !(ip.isEmpty && fp.isEmpty) && ip.all isDigit && fp.all isDigit then
      some (digitsToNat ip)
    else none

/-- `int(float(s))` for a decimal literal with optional sign and surrounding
whitespace; truncation toward zero. `none` models `ValueError`. -/
def pyFloatTruncInt (s : String) : Option Int :=
  match stripWith pyIsSpace s.data with
  | '+' :: rest => (floatBodyToNat rest).map (fun n => (n : Int))
  | '-' :: rest => (floatBodyToNat rest).map (fun n => -(n : Int))
  | rest => (floatBodyToNat rest).map (fun n => (n : Int))

/-- `_safe_int` from `app.py` applied to `bd.get(label, 0) or 0`:
a missing key gives the `int` default `0`; an empty string is falsy and
replaced by `0`; a non-numeric string raises `ValueError`, caught to `0`. -/
def _safe_int (v : Option String) : Int :=
  match v with
  | none => 0
  | some s => if s = "" then 0 else (pyFloatTruncInt s).getD 0

/-- The numeric value `app.py` displays for one breakdown label:
`_safe_int(bd.get(label, 0) or 0)` with `bd = parse_breakdown(breakdown)`. -/
def displayedBreakdownValue (breakdown label : String) : Int :=
  _safe_int (dictGet (parse_breakdown breakdown) label)

/-- One rendered breakdown chip: `f"{label} {val}/{max_val}"` when the label
has a declared maximum, else `f"{label} {val}"`. -/
def breakdownSegment (breakdown label : String) : String :=
  let val := displayedBreakdownValue breakdown label
  let maxVal := BREAKDOWN_MAX label
  if maxVal ≠ 0 then label ++ " " ++ toString val ++ "/" ++ toString maxVal
  else label ++ " " ++ toString val

/-- The score block of a card: rendered only when the row's coalesced score is
truthy (`if score:`), listing the four labelled segments. -/
def scoreBlock (score : Int) (breakdown : String) : Option (List String) :=
  if score ≠ 0 then some (breakdownLabels.map (breakdownSegment breakdown))
  else none

/-! ### `tools/llm_summary.py` — provider adapter (`call_llm`) -/

/-- The Python exception surface relevant to `call_llm`. -/
inductive PyExc where
  | rateLimit
  | apiError
  | internalServer
  | runtime (msg : String)
  | httpError
  | other (name : String)
deriving DecidableEq, Repr

/-- Result dict of `call_llm`: `{"text": ..., "tokens": ..., "model": ...}`.
`text` is optional because the OpenAI SDK may return `None` content. -/
structure LLMResp where
  text : Option String
  tokens : Option Nat
  model : String
deriving DecidableEq, Repr

/-- `retry_if_exception_type((RateLimitError, APIError, InternalServerError))`.
When the `openai` import fails, all three names are bound to `Exception`, so
every exception satisfies the isinstance test. -/
def retryable (sdkAvailable : Bool) (e : PyExc) : Bool :=
  if sdkAvailable then
    match e with
    | PyExc.rateLimit => true
    | PyExc.apiError => true
    | PyExc.internalServer => true
    | _ => false
  else true

/-- `wait_exponential(multiplier=2, min=5, max=90)`: the wait after the n-th
failed attempt is `2 * 2^(n-1)` seconds clamped into `[5, 90]`. -/
def waitBefore (attempt : Nat) : Nat :=
  min 90 (max 5 (2 * 2 ^ (attempt - 1)))

/-- The tenacity retry loop: run attempt `k` with `rem` retries left; retry
only when the raised exception satisfies `retryIf`; after the last allowed
attempt the final exception escalates (tenacity raises `RetryError`).
Returns the number of attempts made and the final outcome. -/
def tenacityLoop (retryIf : PyExc → Bool) (outcomes : Nat → Except PyExc α) :
    Nat → Nat → Nat × Except PyExc α
  | k, rem =>
    match outcomes k with
    | Except.ok v => (k, Except.ok v)
    | Except.error e =>
      match rem with
      | 0 => (k, Except.error e)
      | Nat.succ r =>
        if retryIf e then tenacityLoop retryIf outcomes (k + 1) r
        else (k, Except.error e)

/-- `stop_after_attempt(8)`: at most 8 attempts, numbered from 1. -/
def tenacityRun (retryIf : PyExc → Bool) (outcomes : Nat → Except PyExc α)
    (maxAttempts : Nat) : Nat × Except PyExc α :=
  tenacityLoop retryIf outcomes 1 (maxAttempts - 1)

/-- One un-retried execution of the body of `call_llm`: the provider branch.
`env k` is the backend's response to the k-th invocation; the openai branch
without the SDK and the unknown-provider branch raise `RuntimeError` before
any network call. -/
def callBody (sdkAvailable : Bool) (provider : String)
    (env : Nat → Except PyExc LLMResp) (k : Nat) : Except PyExc LLMResp :=
  if provider = "openai" then
    if sdkAvailable then env k
    else Except.error (PyExc.runtime "openai SDK not available - install openai package")
  else if provider = "anthropic" then env k
  else if provider = "ollama" then env k
  else Except.error (PyExc.runtime ("Unknown SUMMARY_PROVIDER: " ++ provider))

/-- `call_llm` as decorated by `@retry(...)`: attempts the provider body up to
8 times, retrying exactly the exceptions `retryable` accepts. -/
def call_llm (sdkAvailable : Bool) (provider : String)
    (env : Nat → Except PyExc LLMResp) : Nat × Except PyExc LLMResp :=
  tenacityRun (retryable sdkAvailable) (callBody sdkAvailable provider env) 8

/-! ### `tools/llm_summary.py` — triage with fallback -/

/-- Result dict of `triage_paper` / `triage_with_openai`. -/
structure TriageResult where
  relevant : Bool
  reason : String
  model : String
  tokens : Option Nat
deriving DecidableEq, Repr

/-- Shared response parsing: `"RELEVANT: YES" in text.upper()` and the first
line containing `"REASON:"`, split once at its first colon and stripped.
`dfltReason` differs between the Gemini path (`"No reason provided"`) and the
OpenAI fallback (the whole text). -/
def parseVerdict (text : String) : Bool :=
  pyContains "RELEVANT: YES" (pyUpper text)

def reasonLines (text : String) : List (List Char) :=
  (splitOnChar '\n' text.data).filter
    (fun l => containsSub "REASON:".data (l.map Char.toUpper))

def parseReason (text dfltReason : String) : String :=
  match reasonLines text with
  | [] => dfltReason
  | l :: _ =>
    match splitOnce ':' l with
    | some p => ⟨stripWith pyIsSpace p.2⟩
    | none => dfltReason

/-- `triage_with_openai`: the fallback classifier. `env` is the outcome of the
OpenAI chat call — `error` when the client raises (propagates uncaught),
`ok (text, usage)` otherwise (`usage` empty means falsy `resp.usage`). -/
def triage_with_openai (env : Except String (String × Option Nat)) :
    Except String TriageResult :=
  match env with
  | Except.error e => Except.error e
  | Except.ok (text, usage) =>
    Except.ok
      { relevant := parseVerdict text
        reason := parseReason text text
        model := "gpt-4o-mini (fallback)"
        tokens := some (usage.getD 0) }

/-- `triage_paper`: the Gemini path (`gem` is `error` for an `ImportError`,
missing `GOOGLE_API_KEY`, or any runtime exception; `ok text` for a response).
Any Gemini failure falls back to `triage_with_openai` exactly once.
Returns the number of fallback invocations with the value the caller gets. -/
def triage_paper (geminiModel : String) (gem : Except String String)
    (openaiEnv : Except String (String × Option Nat)) :
    Nat × Except String TriageResult :=
  match gem with
  | Except.ok raw =>
    let text := pyStrip raw
    (0, Except.ok
      { relevant := parseVerdict text
        reason := parseReason text "No reason provided"
        model := geminiModel
        tokens := some 0 })
  | Except.error _ => (1, triage_with_openai openaiEnv)

/-! ### `tools/summarize_papers.py` — orchestrator -/

/-- A row of the `papers` table, with the mutable processing fields nullable
as in the schema. -/
structure PaperRow where
  id : Nat
  title : String
  authors : String
  date : String
  abstract : String
  arxiv_link : String
  notes : Option String
  summary_md : Option String
  tldr : Option String
  model_used : Option String
  summary_tokens : Option Nat
  last_summarized_at : Option String
  excitement_score : Option Int
  excitement_reasoning : Option String
  score_breakdown : Option String
  last_scored_at : Option String
deriving DecidableEq, Repr

/-- The deterministic LLM backend for one run: `triage` is the behaviour of
`triage_paper` on a title and abstract; `summarize` the behaviour of
`call_llm` on a prompt. `error` models a raised exception. -/
structure Backend where
  triage : String → String → Except String TriageResult
  summarize : String → Except String LLMResp

/-- Run statistics: the printed counters of `main`, plus the number of
backend invocations (triage and summarization calls made), the observable
the idempotence property counts. -/
structure RunStats where
  triaged : Nat
  skipped : Nat
  summarized : Nat
  triageTokens : Nat
  triageCalls : Nat
  summarizeCalls : Nat
deriving DecidableEq, Repr

def initStats : RunStats :=
  ⟨0, 0, 0, 0, 0, 0⟩

/-- The unforced `WHERE` clause of `fetch_papers`:
`(summary_md IS NULL OR TRIM(summary_md) = '') OR (tldr IS NULL OR TRIM(tldr) = '')`. -/
def needsSummary (r : PaperRow) : Bool :=
  (match r.summary_md with
   | none => true
   | some s => sqlTrim s = "")
  ||
  (match r.tldr with
   | none => true
   | some s => sqlTrim s = "")

/-- `ORDER BY id DESC`. -/
def byIdDesc (a b : PaperRow) : Prop :=
  b.id ≤ a.id

instance : DecidableRel byIdDesc :=
  fun a b => inferInstanceAs (Decidable (b.id ≤ a.id))

/-- The `id IN (...)` path of `fetch_papers`: the `lookup` dict maps each id
to its (last) fetched row, then rows are listed in the order of `ids`,
dropping missing ids (which are only printed). -/
def lookupById (db : List PaperRow) (i : Nat) : Option PaperRow :=
  (db.filter (fun r => r.id == i)).getLast?

/-- `fetch_papers`: explicit ids take precedence; otherwise `force` selects
the most recent `batch` rows; otherwise the most recent `batch` rows still
missing a summary or TLDR. -/
def fetch_papers (db : List PaperRow) (ids : List Nat) (force : Bool)
    (batch : Nat) : List PaperRow :=
  if !ids.isEmpty then
    ids.filterMap (lookupById db)
  else if force then
    (List.insertionSort byIdDesc db).take batch
  else
    (List.insertionSort byIdDesc (db.filter needsSummary)).take batch

/-- `PROMPT_TEMPLATE.format(**row)` (the fetched row supplies `title`,
`authors`, `url`, `abstract` and the coalesced `notes`). -/
def promptFor (r : PaperRow) : String :=
  "You are a research summarizer for ML practitioners, engineers, and students who understand AI/ML fundamentals.\n\nOutput only valid Markdown in this exact structure:\n\n# TLDR\n<2-4 clear sentences capturing the main contribution and key finding. Be specific and concrete. ~50-80 words>\n\n## Problem\n<One bullet: what gap or question does this address?>\n\n## Method\n<2-3 bullets: the key ideas and approach, including scope/scale where relevant>\n\n## Key Results\n<3-5 bullets: the most important findings - be specific with numbers and comparisons where available>\n\n## Limitations\n<1-3 bullets: scope constraints, caveats, or open questions - focus on what the paper explicitly acknowledges>\n\n## Why It Matters\n<2-3 bullets: practical implications or why researchers should care - be specific, not generic>\n\n## Notable Quotes\n<3 quotes from the abstract that capture key insights>\n\nGuidelines:\n- Be precise and concrete - include specific numbers, scales, and comparisons\n- Use technical terms naturally but explain complex concepts clearly\n- Focus on insights, not just descriptions\n- Don't oversell or add hype not present in the source\n\n---\n\nTitle: " ++ r.title ++ "\nAuthors: " ++ r.authors ++ "\nArXiv ID/URL: " ++ r.arxiv_link ++ "\n\nAbstract:\n" ++ r.abstract ++ "\n\nOptional context:\n" ++ (r.notes.getD "")

/-- The fixed skip sentinel persisted for irrelevant papers. -/
def SKIP_SENTINEL : String :=
  "[Skipped - Not relevant to reasoning]"

/-- `has_real_summary = existing_summary and "[Skipped" not in existing_summary`. -/
def hasRealSummary (existing : String) : Bool :=
  !(existing == "") && !(pyContains "[Skipped" existing)

/-- Apply `f` to every row with the given id (the `WHERE id = ?` update). -/
def updateRow (db : List PaperRow) (pid : Nat) (f : PaperRow → PaperRow) :
    List PaperRow :=
  db.map (fun r => if r.id == pid then f r else r)

/-- `save_summary`: one atomic UPDATE of the five summary fields. -/
def save_summary (db : List PaperRow) (pid : Nat) (md tldr model : String)
    (tokens : Option Nat) (now : String) : List PaperRow :=
  updateRow db pid (fun r =>
    { r with
      summary_md := some md
      tldr := some tldr
      model_used := some model
      summary_tokens := tokens
      last_summarized_at := some now })

/-- The summarization half of the loop body: one `call_llm` invocation; on
success strip the text, extract the TLDR and persist; on exception print and
leave the row untouched. -/
def summarizeStep (B : Backend) (now : String) (db : List PaperRow)
    (s : RunStats) (row : PaperRow) : List PaperRow × RunStats :=
  let s1 := { s with summarizeCalls := s.summarizeCalls + 1 }
  match B.summarize (promptFor row) with
  | Except.ok resp =>
    let md := pyStrip (resp.text.getD "")
    let tl := extract_tldr md
    (save_summary db row.id md tl resp.model resp.tokens now,
     { s1 with summarized := s1.summarized + 1 })
  | Except.error _ => (db, s1)

/-- The body of `main`'s per-row loop: skip rows that already carry a real
summary (unless forced); otherwise triage, persist the skip sentinel for
irrelevant papers, and summarize relevant ones — also when triage raised. -/
def processRow (B : Backend) (force : Bool) (now : String)
    (db : List PaperRow) (s : RunStats) (row : PaperRow) :
    List PaperRow × RunStats :=
  let existing := row.summary_md.getD ""
  if hasRealSummary existing && !force then (db, s)
  else
    match B.triage row.title row.abstract with
    | Except.ok tr =>
      let s1 := { s with
        triageCalls := s.triageCalls + 1
        triaged := s.triaged + 1
        triageTokens := s.triageTokens + tr.tokens.getD 0 }
      if !tr.relevant then
        (updateRow db row.id (fun r =>
          { r with summary_md := some SKIP_SENTINEL, tldr := some tr.reason }),
         { s1 with skipped := s1.skipped + 1 })
      else summarizeStep B now db s1 row
    | Except.error _ =>
      summarizeStep B now db { s with triageCalls := s.triageCalls + 1 } row

/-- All stored fields of a row except the two the skip-sentinel UPDATE sets
(`summary_md` and `tldr`): the frame for the not-relevant persistence step. -/
def frameFields (r : PaperRow) :
    Nat × String × String × String × String × String × Option String ×
    Option String × Option Nat × Option String × Option Int ×
    Option String × Option String × Option String :=
  (r.id, r.title, r.authors, r.date, r.abstract, r.arxiv_link, r.notes,
   r.model_used, r.summary_tokens, r.last_summarized_at, r.excitement_score,
   r.excitement_reasoning, r.score_breakdown, r.last_scored_at)

def runStep (B : Backend) (force : Bool) (now : String)
    (st : List PaperRow × RunStats) (row : PaperRow) :
    List PaperRow × RunStats :=
  processRow B force now st.1 st.2 row

/-- `main`: fetch the batch once, then fold the loop body over the fetched
snapshots, threading the store and counters. -/
def runMain (B : Backend) (now : String) (ids : List Nat) (force : Bool)
    (batch : Nat) (db : List PaperRow) : List PaperRow × RunStats :=
  (fetch_papers db ids force batch).foldl (runStep B force now) (db, initStats)

/-! ### `tools/collect_weekly_papers.py` — ingestion and dedup -/

/-- An entry of the HuggingFace daily-papers feed. -/
structure FeedPaper where
  id : String
  title : String
  authorNames : List String
  summary : String
  publishedAt : String
deriving DecidableEq, Repr

/-- A candidate built by `get_huggingface_papers`. -/
structure Candidate where
  arxiv_id : String
  title : String
  authors : String
  abstract : String
  url : String
  published : String
deriving DecidableEq, Repr

def joinComma : List String → String
  | [] => ""
  | [a] => a
  | a :: rest => a ++ ", " ++ joinComma rest

/-- `", ".join(names[:5])` with `", et al."` appended past five authors. -/
def hfAuthors (names : List String) : String :=
  joinComma (names.take 5) ++ (if names.length > 5 then ", et al." else "")

def hfCandidate (item : FeedPaper) : Candidate :=
  { arxiv_id := item.id
    title := item.title
    authors := hfAuthors item.authorNames
    abstract := item.summary
    url := "https://arxiv.org/abs/" ++ item.id
    published := item.publishedAt }

/-- `get_huggingface_papers` over an already-fetched feed: drop entries with
an empty id, build candidates with the arxiv.org link embedding the id. -/
def get_huggingface_papers (items : List FeedPaper) : List Candidate :=
  (items.filter (fun i => i.id ≠ "")).map hfCandidate

/-- The columns inserted by `add_paper_to_db`. -/
structure StoredPaper where
  arxiv_id : String
  title : String
  authors : String
  date : String
  abstract : String
  arxiv_link : String
  reasoning_category : String
  keywords : String
  notes : String
  date_added : String
deriving DecidableEq, Repr

/-- SQLite `LIKE` matching (default, ASCII case-insensitive): `%` matches any
sequence, `_` any single character. -/
def likeMatch : List Char → List Char → Bool
  | [], s => s.isEmpty
  | p :: ps, s =>
    if p = '%' then
      likeMatch ps s ||
        (match s with
         | [] => false
         | _ :: s2 => likeMatch (p :: ps) s2)
    else
      match s with
      | [] => false
      | c :: s2 =>
        if p = '_' then likeMatch ps s2
        else (Char.toLower p = Char.toLower c) && likeMatch ps s2
termination_by p s => p.length + s.length

/-- `paper_exists`: `SELECT COUNT(*) FROM papers WHERE arxiv_link LIKE ?`
with the pattern `f"%{arxiv_id}%"`. -/
def paper_exists (store : List StoredPaper) (aid : String) : Bool :=
  store.any (fun r => likeMatch ('%' :: (aid.data ++ ['%'])) r.arxiv_link.data)

/-- The row built by `add_paper_to_db` (`today`/`now` stand for the two
`datetime.now()` renderings). -/
def mkStored (today now : String) (c : Candidate) : StoredPaper :=
  { arxiv_id := c.arxiv_id
    title := c.title
    authors := c.authors
    date := c.published
    abstract := c.abstract
    arxiv_link := c.url
    reasoning_category := "huggingface"
    keywords := ""
    notes := "Auto-collected from HF on " ++ today
    date_added := now }

/-- `add_paper_to_db`: the INSERT either commits (appending the row) or
raises; the exception is caught inside the function, which returns `False`
and leaves the store unchanged. `insertOk` is the environment oracle for
whether the INSERT succeeds. -/
def add_paper_to_db (insertOk : Candidate → Bool) (today now : String)
    (store : List StoredPaper) (c : Candidate) : List StoredPaper × Bool :=
  if insertOk c then (store ++ [mkStored today now c], true)
  else (store, false)

/-- The printed tally of `collect_weekly_papers.main`: new and skipped only. -/
structure CollectTally where
  new_count : Nat
  skipped_count : Nat
deriving DecidableEq, Repr

/-- One iteration of the ingestion loop: skip candidates already present,
count successful inserts, and silently continue after a failed insert. -/
def collectStep (insertOk : Candidate → Bool) (today now : String)
    (st : List StoredPaper × CollectTally) (c : Candidate) :
    List StoredPaper × CollectTally :=
  if paper_exists st.1 c.arxiv_id then
    (st.1, { st.2 with skipped_count := st.2.skipped_count + 1 })
  else
    let res := add_paper_to_db insertOk today now st.1 c
    if res.2 then (res.1, { st.2 with new_count := st.2.new_count + 1 })
    else (res.1, st.2)

/-- The ingestion run: fold the loop over the fetched candidates starting
from zero counters; the final tally is what `main` prints. -/
def collectRun (insertOk : Candidate → Bool) (today now : String)
    (store : List StoredPaper) (papers : List Candidate) :
    List StoredPaper × CollectTally :=
  papers.foldl (collectStep insertOk today now) (store, ⟨0, 0⟩)

/-- Observation on one ingestion-loop iteration: thread the store exactly as
`collectStep` does, but count the candidates whose INSERT raised
(`add_paper_to_db` returned `False`). -/
def collectFailStep (insertOk : Candidate → Bool) (today now : String)
    (acc : List StoredPaper × Nat) (c : Candidate) : List StoredPaper × Nat :=
  if paper_exists acc.1 c.arxiv_id then acc
  else
    let res := add_paper_to_db insertOk today now acc.1 c
    (res.1, if res.2 then acc.2 else acc.2 + 1)

/-- The number of failed insertions in a run. The loop neither aborts on them
nor counts them anywhere: this observation appears in no printed tally. -/
def collectFailed (insertOk : Candidate → Bool) (today now : String)
    (store : List StoredPaper) (papers : List Candidate) : Nat :=
  (papers.foldl (collectFailStep insertOk today now) (store, 0)).2

/-! ### Concrete fixtures used by witnesses and counterexamples -/

/-- A freshly ingested row with all processing fields unset. -/
def rowPending : PaperRow :=
  ⟨1, "Chain-of-Thought Improves Planning", "A. Author", "2024-01-01",
   "We study multi-step reasoning.", "https://arxiv.org/abs/1111.2222",
   none, none, none, none, none, none, none, none, none, none⟩

/-- A deterministic backend whose triage accepts everything and whose
summarizer succeeds with a fixed TLDR document. -/
def backendRelevantOk : Backend :=
  ⟨fun _ _ => Except.ok ⟨true, "reasoning focus", "gemini-1.5-flash", some 0⟩,
   fun _ => Except.ok ⟨some "# TLDR\nGreat paper.", some 9, "gpt-4o"⟩⟩

/-- A deterministic backend whose triage accepts everything and whose
summarizer raises on every call. -/
def backendSummarizeFail : Backend :=
  ⟨fun _ _ => Except.ok ⟨true, "reasoning focus", "gemini-1.5-flash", some 0⟩,
   fun _ => Except.error "InternalServerError"⟩

/-- A deterministic backend whose triage reports not-relevant. -/
def backendIrrelevant : Backend :=
  ⟨fun _ _ => Except.ok ⟨false, "off topic", "gemini-1.5-flash", some 0⟩,
   fun _ => Except.error "summarizer never reached"⟩

/-- A deterministic backend whose triage raises and whose summarizer also
raises. -/
def backendBothFail : Backend :=
  ⟨fun _ _ => Except.error "Gemini down",
   fun _ => Except.error "provider down"⟩

/-- A feed candidate as built by `get_huggingface_papers`. -/
def candA : Candidate :=
  hfCandidate ⟨"1234.56789", "Test Paper", ["A One"], "An abstract.", "2024-01-02"⟩

/-! ## Toolkit lemmas on the string primitives -/

theorem stripWith_eq_nil_iff (p : Char → Bool) (l : List Char) :
    stripWith p l = [] ↔ ∀ c ∈ l, p c := by
  unfold stripWith
  constructor
  · intro h c hc
    have h1 : (l.dropWhile p).reverse.dropWhile p = [] := by
      have := congrArg List.reverse h
      simpa using this
    have h3 : ∀ x ∈ l.dropWhile p, p x := by
      intro x hx
      exact List.dropWhile_eq_nil_iff.mp h1 x (List.mem_reverse.mpr hx)
    have hsplit := List.takeWhile_append_dropWhile (p := p) (l := l)
    rw [← hsplit] at hc
    rcases List.mem_append.mp hc with h4 | h4
    · exact List.mem_takeWhile_imp h4
    · exact h3 c h4
  · intro h
    have : l.dropWhile p = [] := List.dropWhile_eq_nil_iff.mpr h
    simp [this]

theorem mem_stripWith {p : Char → Bool} {l : List Char} {c : Char}
    (hc : c ∈ l) (hp : p c = false) : c ∈ stripWith p l := by
  have step : ∀ m : List Char, c ∈ m → c ∈ m.dropWhile p := by
    intro m hm
    have hsplit := List.takeWhile_append_dropWhile (p := p) (l := m)
    rw [← hsplit] at hm
    rcases List.mem_append.mp hm with h | h
    · have := List.mem_takeWhile_imp h
      simp [hp] at this
    · exact h
  unfold stripWith
  exact List.mem_reverse.mpr (step _ (List.mem_reverse.mpr (step _ hc)))

theorem stripWith_cons_not {p : Char → Bool} :
    ∀ {l : List Char} {c : Char} {r : List Char},
      stripWith p l = c :: r → p c = false := by
  intro l
  induction l with
  | nil => intro c r h; simp [stripWith] at h
  | cons a t ih =>
    intro c r h
    by_cases hpa : p a
    · have heq : stripWith p (a :: t) = stripWith p t := by
        unfold stripWith
        rw [List.dropWhile_cons_of_pos hpa]
      rw [heq] at h
      exact ih h
    · have hd : stripWith p (a :: t) = ((a :: t).reverse.dropWhile p).reverse := by
        unfold stripWith
        rw [List.dropWhile_cons_of_neg hpa]
      rw [hd, List.reverse_cons, List.dropWhile_append] at h
      by_cases he : (t.reverse.dropWhile p).isEmpty
      · rw [if_pos he] at h
        have h1 : List.dropWhile p [a] = [a] := by
          simp [List.dropWhile_cons_of_neg hpa]
        rw [h1] at h
        simp at h
        obtain ⟨hc, -⟩ := h
        rw [← hc]
        simpa using hpa
      · rw [if_neg he, List.reverse_append] at h
        simp at h
        obtain ⟨hc, -⟩ := h
        rw [← hc]
        simpa using hpa

theorem exists_not_of_stripWith_ne {p : Char → Bool} {l : List Char}
    (h : stripWith p l ≠ []) : ∃ c ∈ stripWith p l, p c = false := by
  cases hs : stripWith p l with
  | nil => exact absurd hs h
  | cons c r => exact ⟨c, by simp, stripWith_cons_not hs⟩

theorem mkStr_eq_empty_iff (l : List Char) : (⟨l⟩ : String) = "" ↔ l = [] := by
  constructor
  · intro h
    have := congrArg String.data h
    simpa using this
  · intro h
    subst h
    rfl

theorem sqlTrim_eq_empty_iff (s : String) :
    sqlTrim s = "" ↔ ∀ c ∈ s.data, c = ' ' := by
  unfold sqlTrim
  rw [mkStr_eq_empty_iff, stripWith_eq_nil_iff]
  simp

theorem pyStrip_eq_empty_iff (s : String) :
    pyStrip s = "" ↔ ∀ c ∈ s.data, pyIsSpace c := by
  unfold pyStrip
  rw [mkStr_eq_empty_iff, stripWith_eq_nil_iff]

theorem sqlTrim_ne_empty {s : String} {c : Char}
    (hc : c ∈ s.data) (hne : c ≠ ' ') : sqlTrim s ≠ "" := by
  intro hEq
  rw [sqlTrim_eq_empty_iff] at hEq
  exact hne (hEq c hc)

theorem space_of_pyIsSpace_false {c : Char} (h : pyIsSpace c = false) : c ≠ ' ' := by
  intro hc
  rw [hc] at h
  simp [pyIsSpace] at h

/-- Stripping only spaces from an already whitespace-stripped nonempty string
leaves it nonempty. -/
theorem sqlTrim_pyStrip_ne {s : String} (h : pyStrip s ≠ "") :
    sqlTrim (pyStrip s) ≠ "" := by
  have hne : stripWith pyIsSpace s.data ≠ [] := by
    intro hnil
    exact h (by simp [pyStrip, hnil])
  obtain ⟨c, hc, hp⟩ := exists_not_of_stripWith_ne hne
  exact sqlTrim_ne_empty (s := pyStrip s) hc (space_of_pyIsSpace_false hp)

/-! ## Lemmas on `extract_tldr` -/

theorem findTldr_eq_none {lines : List (List Char)}
    (h : ∀ l ∈ lines, isTldrHeading l = false) : findTldr lines = none := by
  induction lines with
  | nil => rfl
  | cons l rest ih =>
    have hl := h l (by simp)
    have hrest := ih (fun x hx => h x (List.mem_cons_of_mem _ hx))
    simp [findTldr, hl, hrest]

theorem firstNonblankWithin_mem {n : Nat} :
    ∀ {xs : List (List Char)} {t : List Char},
      firstNonblankWithin n xs = some t → t ∈ xs ∧ t ≠ [] := by
  induction n with
  | zero => intro xs t h; simp [firstNonblankWithin] at h
  | succ m ih =>
    intro xs t h
    cases xs with
    | nil => simp [firstNonblankWithin] at h
    | cons x r =>
      by_cases hx : x.isEmpty
      · rw [firstNonblankWithin, if_pos hx] at h
        obtain ⟨hmem, hne⟩ := ih h
        exact ⟨List.mem_cons_of_mem _ hmem, hne⟩
      · rw [firstNonblankWithin, if_neg hx] at h
        obtain rfl := Option.some.inj h
        refine ⟨by simp, ?_⟩
        simpa using hx

theorem findTldr_some_mem :
    ∀ {lines : List (List Char)} {t : List Char},
      findTldr lines = some t → t ∈ lines ∧ t ≠ [] := by
  intro lines
  induction lines with
  | nil => intro t h; simp [findTldr] at h
  | cons l rest ih =>
    intro t h
    by_cases hl : isTldrHeading l
    · rw [findTldr, if_pos hl] at h
      cases hw : firstNonblankWithin 5 rest with
      | some u =>
        rw [hw] at h
        obtain rfl := Option.some.inj h
        obtain ⟨hmem, hne⟩ := firstNonblankWithin_mem hw
        exact ⟨List.mem_cons_of_mem _ hmem, hne⟩
      | none =>
        rw [hw] at h
        obtain ⟨hmem, hne⟩ := ih h
        exact ⟨List.mem_cons_of_mem _ hmem, hne⟩
    · rw [findTldr, if_neg hl] at h
      obtain ⟨hmem, hne⟩ := ih h
      exact ⟨List.mem_cons_of_mem _ hmem, hne⟩

theorem firstNonblank_some_mem :
    ∀ {lines : List (List Char)} {t : List Char},
      firstNonblank lines = some t → t ∈ lines ∧ t ≠ [] := by
  intro lines
  induction lines with
  | nil => intro t h; simp [firstNonblank] at h
  | cons l rest ih =>
    intro t h
    by_cases hl : l.isEmpty
    · rw [firstNonblank, if_pos hl] at h
      obtain ⟨hmem, hne⟩ := ih h
      exact ⟨List.mem_cons_of_mem _ hmem, hne⟩
    · rw [firstNonblank, if_neg hl] at h
      obtain rfl := Option.some.inj h
      refine ⟨by simp, ?_⟩
      simpa using hl

theorem firstNonblank_isSome {lines : List (List Char)} {x : List Char}
    (hx : x ∈ lines) (hne : x ≠ []) : ∃ t, firstNonblank lines = some t := by
  induction lines with
  | nil => simp at hx
  | cons l rest ih =>
    by_cases hl : l.isEmpty
    · rw [firstNonblank, if_pos hl]
      rcases List.mem_cons.mp hx with rfl | hmem
      · exact absurd (List.isEmpty_iff.mp hl) hne
      · exact ih hmem
    · exact ⟨l, by rw [firstNonblank, if_neg hl]⟩

/-! ## C1 — score-breakdown display versus declared maxima -/

/-- C1 counterexample: with a nonzero score and the stored breakdown string
`"Novelty: 99"`, the card renders the chip `"Novelty 99/3"` — the parsed
value 99 is displayed unclamped above the declared maximum 3, refuting the
claim that a value above the cap is never displayed. -/
theorem C1_counterexample :
    scoreBlock 7 "Novelty: 99"
      = some ["Novelty 99/3", "Impact 0/4", "Results 0/2", "Access 0/1"]
    ∧ displayedBreakdownValue "Novelty: 99" "Novelty" = 99
    ∧ BREAKDOWN_MAX "Novelty" = 3
    ∧ ¬(displayedBreakdownValue "Novelty: 99" "Novelty"
          ≤ (BREAKDOWN_MAX "Novelty" : Int)) := by
  refine ⟨by decide, by decide, by decide, by decide⟩

/-- C1 amended: breakdown values that fail numeric parsing (or are absent)
are rejected to 0, but numerically parsed values are not clamped — a value
above the dimension's declared maximum is displayed unchanged, as the
concrete `99/3` case shows. -/
theorem C1_amended :
    (∀ bd label s, dictGet (parse_breakdown bd) label = some s →
        pyFloatTruncInt s = none → displayedBreakdownValue bd label = 0)
    ∧ (∀ bd label, dictGet (parse_breakdown bd) label = none →
        displayedBreakdownValue bd label = 0)
    ∧ displayedBreakdownValue "Novelty: 99" "Novelty" = 99
    ∧ ¬((99 : Int) ≤ (BREAKDOWN_MAX "Novelty" : Int)) := by
  refine ⟨?_, ?_, by decide, by decide⟩
  · intro bd label s h hn
    unfold displayedBreakdownValue _safe_int
    rw [h]
    by_cases hs : s = ""
    · simp [hs]
    · simp [hs, hn]
  · intro bd label h
    unfold displayedBreakdownValue _safe_int
    rw [h]

/-- C1 witness: the rejection half of the amended claim at the concrete
unparseable breakdown value `"abc"`. -/
theorem C1_witness :
    displayedBreakdownValue "Novelty: abc" "Novelty" = 0 :=
  C1_amended.1 "Novelty: abc" "Novelty" "abc" (by decide) (by decide)

/-! ## C3 — digest length bound -/

set_option maxRecDepth 4000 in
/-- C3 counterexample: a document whose TLDR heading is followed by a
300-character line makes `extract_tldr` return all 300 characters — the
heading path does not truncate, so the digest exceeds 280 characters. -/
theorem C3_counterexample :
    ¬((extract_tldr ("# TLDR\n" ++ ⟨List.replicate 300 'x'⟩)).length ≤ 280) := by
  decide

/-- C3 amended: the 280-character truncation applies only on the fallback
path (no TLDR heading matched); when a TLDR heading is found, the first
following non-blank line of its window is returned verbatim, untruncated. -/
theorem C3_amended (md : String) :
    (findTldr (linesOf md) = none → (extract_tldr md).length ≤ 280)
    ∧ (∀ t, findTldr (linesOf md) = some t → extract_tldr md = ⟨t⟩) := by
  constructor
  · intro h
    cases hf : firstNonblank (linesOf md) with
    | none => simp [extract_tldr, h, hf]
    | some l =>
      have : extract_tldr md = ⟨l.take 280⟩ := by
        simp [extract_tldr, h, hf]
      rw [this]
      show (l.take 280).length ≤ 280
      rw [List.length_take]
      exact min_le_left _ _
  · intro t h
    simp [extract_tldr, h]

/-- C3 witness: the fallback bound at a concrete headingless document. -/
theorem C3_witness : (extract_tldr "just one line").length ≤ 280 :=
  (C3_amended "just one line").1 (by decide)

/-! ## C6 — digest extraction: totality and the three specified behaviours -/

/-- C6 confirmed: `extract_tldr` is a total Lean function of its string input
(hence deterministic and exception-free); on the claim's example document it
returns `"Foo bar."`; with no TLDR heading it returns the first non-blank
line truncated to 280 characters (empty when all lines are blank); and on
the empty string it returns the empty string. -/
theorem C6_extract_tldr :
    extract_tldr "# TLDR\n\nFoo bar.\n## Problem\n..." = "Foo bar."
    ∧ (∀ s : String, (∀ l ∈ linesOf s, isTldrHeading l = false) →
        (∀ t, firstNonblank (linesOf s) = some t →
            extract_tldr s = ⟨t.take 280⟩)
        ∧ (firstNonblank (linesOf s) = none → extract_tldr s = ""))
    ∧ extract_tldr "" = "" := by
  refine ⟨by decide, ?_, rfl⟩
  intro s hs
  have hnone := findTldr_eq_none hs
  constructor
  · intro t ht
    simp [extract_tldr, hnone, ht]
  · intro ht
    simp [extract_tldr, hnone, ht]

/-- C6 witness: the no-heading branch at a concrete two-line document. -/
theorem C6_witness : extract_tldr "hello world\nsecond" = "hello world" := by
  have h := (C6_extract_tldr.2.1 "hello world\nsecond" (by decide)).1
    "hello world".data (by decide)
  exact h.trans (by decide)

/-! ## C5 — `call_llm` retry behaviour -/

theorem tenacityLoop_fst_le {α : Type} (retryIf : PyExc → Bool)
    (o : Nat → Except PyExc α) :
    ∀ (rem k : Nat), (tenacityLoop retryIf o k rem).1 ≤ k + rem := by
  intro rem
  induction rem with
  | zero =>
    intro k
    unfold tenacityLoop
    cases o k <;> simp
  | succ r ih =>
    intro k
    unfold tenacityLoop
    cases ho : o k with
    | ok v => simp
    | error e =>
      cases hr : retryIf e
      · simp [hr]
      · simp only [hr, if_true]
        have := ih (k + 1)
        omega

theorem tenacityLoop_const_error {α : Type} {retryIf : PyExc → Bool}
    {o : Nat → Except PyExc α} {e : PyExc} (hre : retryIf e = true)
    (ho : ∀ j, o j = Except.error e) :
    ∀ (rem k : Nat), tenacityLoop retryIf o k rem = (k + rem, Except.error e) := by
  intro rem
  induction rem with
  | zero =>
    intro k
    unfold tenacityLoop
    rw [ho k]
    simp
  | succ r ih =>
    intro k
    unfold tenacityLoop
    rw [ho k]
    simp only [hre, if_true]
    rw [ih (k + 1)]
    congr 1
    omega

theorem tenacityLoop_stop {α : Type} {retryIf : PyExc → Bool}
    {o : Nat → Except PyExc α} {e : PyExc} {k : Nat} (rem : Nat)
    (h : o k = Except.error e) (hre : retryIf e = false) :
    tenacityLoop retryIf o k rem = (k, Except.error e) := by
  unfold tenacityLoop
  rw [h]
  cases rem with
  | zero => rfl
  | succ r => simp [hre]

/-- C5 counterexample: with the OpenAI SDK missing (so the retry filter
degenerates to `Exception`), the configuration error "openai SDK not
available" is raised on all 8 attempts instead of propagating immediately —
a non-transient failure is retried, refuting the claim. -/
theorem C5_counterexample :
    call_llm false "openai" (fun _ => Except.error (PyExc.other "transport"))
      = (8, Except.error
          (PyExc.runtime "openai SDK not available - install openai package"))
    ∧ (8 : Nat) ≠ 1 := by
  refine ⟨rfl, by decide⟩

/-- C5 amended: `call_llm` makes at most 8 attempts with waits bounded in
`[5, 90]` seconds; the retried exceptions are exactly the OpenAI SDK's
`RateLimitError`/`APIError`/`InternalServerError` types, so when that SDK is
importable every other exception — including transient HTTP errors from the
ollama branch — propagates on the first attempt, and when the import fails
every exception, configuration errors included, is retried up to 8 times. -/
theorem C5_amended :
    (∀ (sdk : Bool) (provider : String) (env : Nat → Except PyExc LLMResp),
        (call_llm sdk provider env).1 ≤ 8)
    ∧ (∀ k, 5 ≤ waitBefore k ∧ waitBefore k ≤ 90)
    ∧ (∀ e, retryable true e = true ↔
        (e = PyExc.rateLimit ∨ e = PyExc.apiError ∨ e = PyExc.internalServer))
    ∧ (∀ (provider : String) (env : Nat → Except PyExc LLMResp) (e : PyExc),
        callBody true provider env 1 = Except.error e → retryable true e = false →
        call_llm true provider env = (1, Except.error e))
    ∧ (∀ env : Nat → Except PyExc LLMResp,
        call_llm false "openai" env = (8, Except.error
          (PyExc.runtime "openai SDK not available - install openai package"))) := by
  refine ⟨?_, ?_, ?_, ?_, ?_⟩
  · intro sdk provider env
    have := tenacityLoop_fst_le (retryable sdk) (callBody sdk provider env) 7 1
    simpa [call_llm, tenacityRun] using this
  · intro k
    constructor
    · exact le_min (by omega) (le_max_left 5 _)
    · exact min_le_left _ _
  · intro e
    cases e <;> simp [retryable]
  · intro provider env e h hre
    unfold call_llm tenacityRun
    exact tenacityLoop_stop 7 h hre
  · intro env
    unfold call_llm tenacityRun
    have ho : ∀ j, callBody false "openai" env j = Except.error
        (PyExc.runtime "openai SDK not available - install openai package") := by
      intro j
      simp [callBody]
    exact tenacityLoop_const_error (by decide) ho 7 1

/-- C5 witness: a transient 5xx `HTTPError` from the ollama branch is not in
the retry filter and therefore propagates on the first attempt. -/
theorem C5_witness :
    call_llm true "ollama" (fun _ => Except.error PyExc.httpError)
      = (1, Except.error PyExc.httpError) :=
  C5_amended.2.2.2.1 "ollama" (fun _ => Except.error PyExc.httpError)
    PyExc.httpError rfl (by decide)

/-! ## C8 — triage fallback -/

/-- C8 confirmed: whenever the Gemini path of `triage_paper` raises (import
failure, missing `GOOGLE_API_KEY`, or any runtime exception), the OpenAI
fallback classifier is invoked exactly once and the caller receives exactly
the fallback's outcome — in particular, when the fallback returns a result,
the caller gets that result and not an exception. (The fallback's own
failure propagates, as the spec separately provides.) -/
theorem C8_fallback_once (gm : String) (gem : Except String String)
    (oenv : Except String (String × Option Nat)) (e : String)
    (hg : gem = Except.error e) :
    (triage_paper gm gem oenv).1 = 1
    ∧ (triage_paper gm gem oenv).2 = triage_with_openai oenv
    ∧ (∀ r, triage_with_openai oenv = Except.ok r →
        (triage_paper gm gem oenv).2 = Except.ok r) := by
  subst hg
  refine ⟨rfl, rfl, ?_⟩
  intro r h
  exact h

/-- C8 witness: a missing-credential failure on the Gemini path at a concrete
fallback response. -/
theorem C8_witness :
    (triage_paper "gemini-1.5-flash" (Except.error "GOOGLE_API_KEY not set")
        (Except.ok ("RELEVANT: NO\nREASON: off-topic", some 42))).1 = 1
    ∧ (triage_paper "gemini-1.5-flash" (Except.error "GOOGLE_API_KEY not set")
        (Except.ok ("RELEVANT: NO\nREASON: off-topic", some 42))).2
      = Except.ok ⟨false, "off-topic", "gpt-4o-mini (fallback)", some 42⟩ := by
  have h := C8_fallback_once "gemini-1.5-flash" (Except.error "GOOGLE_API_KEY not set")
    (Except.ok ("RELEVANT: NO\nREASON: off-topic", some 42)) "GOOGLE_API_KEY not set" rfl
  exact ⟨h.1, h.2.2 ⟨false, "off-topic", "gpt-4o-mini (fallback)", some 42⟩ rfl⟩

/-! ## C4 — ingestion failure handling and the reported tally -/

/-- C4 counterexample: two runs over the same store — one with a single
candidate whose INSERT fails, one with that candidate twice — have different
numbers of failed insertions (1 versus 2) yet print identical tallies, so
the reported tally contains no failed count, refuting the claim's
three-count reporting. -/
theorem C4_counterexample :
    (collectRun (fun _ => false) "2024-01-02" "now" [] [candA]).2
      = (collectRun (fun _ => false) "2024-01-02" "now" [] [candA, candA]).2
    ∧ collectFailed (fun _ => false) "2024-01-02" "now" [] [candA] = 1
    ∧ collectFailed (fun _ => false) "2024-01-02" "now" [] [candA, candA] = 2
    ∧ (1 : Nat) ≠ 2 := by
  refine ⟨by decide, by decide, by decide, by decide⟩

theorem collect_sync (insertOk : Candidate → Bool) (today now : String) :
    ∀ (papers : List Candidate) (store : List StoredPaper)
      (t : CollectTally) (f : Nat),
      (papers.foldl (collectStep insertOk today now) (store, t)).1
          = (papers.foldl (collectFailStep insertOk today now) (store, f)).1
      ∧ (papers.foldl (collectStep insertOk today now) (store, t)).2.new_count
          + (papers.foldl (collectStep insertOk today now) (store, t)).2.skipped_count
          + (papers.foldl (collectFailStep insertOk today now) (store, f)).2
        = t.new_count + t.skipped_count + f + papers.length := by
  intro papers
  induction papers with
  | nil => intro store t f; exact ⟨rfl, by simp⟩
  | cons c cs ih =>
    intro store t f
    simp only [List.foldl_cons]
    by_cases hex : paper_exists store c.arxiv_id
    · have h1 : collectStep insertOk today now (store, t) c
          = (store, { t with skipped_count := t.skipped_count + 1 }) := by
        simp [collectStep, hex]
      have h2 : collectFailStep insertOk today now (store, f) c = (store, f) := by
        simp [collectFailStep, hex]
      rw [h1, h2]
      obtain ⟨hs, hn⟩ := ih store { t with skipped_count := t.skipped_count + 1 } f
      refine ⟨hs, ?_⟩
      simp only [List.length_cons]
      simp at hn
      omega
    · by_cases hok : insertOk c
      · have h1 : collectStep insertOk today now (store, t) c
            = (store ++ [mkStored today now c],
               { t with new_count := t.new_count + 1 }) := by
          simp [collectStep, hex, add_paper_to_db, hok]
        have h2 : collectFailStep insertOk today now (store, f) c
            = (store ++ [mkStored today now c], f) := by
          simp [collectFailStep, hex, add_paper_to_db, hok]
        rw [h1, h2]
        obtain ⟨hs, hn⟩ := ih (store ++ [mkStored today now c])
          { t with new_count := t.new_count + 1 } f
        refine ⟨hs, ?_⟩
        simp only [List.length_cons]
        simp at hn
        omega
      · have h1 : collectStep insertOk today now (store, t) c = (store, t) := by
          simp [collectStep, hex, add_paper_to_db, hok]
        have h2 : collectFailStep insertOk today now (store, f) c = (store, f + 1) := by
          simp [collectFailStep, hex, add_paper_to_db, hok]
        rw [h1, h2]
        obtain ⟨hs, hn⟩ := ih store t (f + 1)
        refine ⟨hs, ?_⟩
        simp only [List.length_cons]
        omega

/-- C4 amended: an insertion failure is caught per-candidate and aborts
nothing — the failing candidate leaves the store and the tally untouched and
the loop continues with the remaining candidates — and the run's accounting
is complete over added, skipped and failed; but the printed tally reports
only the added and skipped counts, and the failed count appears in no
reported figure (it is only logged per-candidate). -/
theorem C4_amended :
    (∀ (insertOk : Candidate → Bool) (today now : String)
        (store : List StoredPaper) (t : CollectTally) (c : Candidate)
        (cs : List Candidate),
        paper_exists store c.arxiv_id = false → insertOk c = false →
        (c :: cs).foldl (collectStep insertOk today now) (store, t)
          = cs.foldl (collectStep insertOk today now) (store, t))
    ∧ (∀ (insertOk : Candidate → Bool) (today now : String)
        (store : List StoredPaper) (papers : List Candidate),
        (collectRun insertOk today now store papers).2.new_count
          + (collectRun insertOk today now store papers).2.skipped_count
          + collectFailed insertOk today now store papers
        = papers.length) := by
  constructor
  · intro insertOk today now store t c cs hex hok
    simp only [List.foldl_cons]
    have h1 : collectStep insertOk today now (store, t) c = (store, t) := by
      simp [collectStep, hex, add_paper_to_db, hok]
    rw [h1]
  · intro insertOk today now store papers
    have h := (collect_sync insertOk today now papers store ⟨0, 0⟩ 0).2
    simpa [collectRun, collectFailed] using h

/-- C4 witness: the no-abort half of the amended claim at a concrete failing
candidate followed by another candidate. -/
theorem C4_witness :
    ([candA, candA].foldl (collectStep (fun _ => false) "2024-01-02" "now")
        ([], ⟨0, 0⟩))
      = ([candA].foldl (collectStep (fun _ => false) "2024-01-02" "now")
        ([], ⟨0, 0⟩)) :=
  C4_amended.1 (fun _ => false) "2024-01-02" "now" [] ⟨0, 0⟩ candA [candA]
    (by decide) rfl

/-! ## C10 — dedup by identifier embedded in the stored link -/

theorem likeMatch_pct (s : List Char) : likeMatch ['%'] s = true := by
  induction s with
  | nil =>
    unfold likeMatch
    simp [likeMatch]
  | cons c s2 ih =>
    unfold likeMatch
    simp [likeMatch, ih]

theorem likeMatch_pct_cons {p s : List Char} (h : likeMatch p s = true) :
    likeMatch ('%' :: p) s = true := by
  unfold likeMatch
  simp [h]

theorem likeMatch_self_pct : ∀ (pat b : List Char),
    likeMatch (pat ++ ['%']) (pat ++ b) = true := by
  intro pat
  induction pat with
  | nil => intro b; simpa using likeMatch_pct b
  | cons c cs ih =>
    intro b
    by_cases hc : c = '%'
    · subst hc
      have h2 := likeMatch_pct_cons (ih b)
      show likeMatch ('%' :: (cs ++ ['%'])) ('%' :: (cs ++ b)) = true
      unfold likeMatch
      simp [h2]
    · by_cases hu : c = '_'
      · subst hu
        show likeMatch ('_' :: (cs ++ ['%'])) ('_' :: (cs ++ b)) = true
        unfold likeMatch
        simp [ih b]
      · show likeMatch (c :: (cs ++ ['%'])) (c :: (cs ++ b)) = true
        unfold likeMatch
        simp [hc, hu, ih b]

theorem likeMatch_prepend : ∀ (a : List Char) {p s : List Char},
    likeMatch p s = true → likeMatch ('%' :: p) (a ++ s) = true := by
  intro a
  induction a with
  | nil => intro p s h; simpa using likeMatch_pct_cons h
  | cons x a2 ih =>
    intro p s h
    show likeMatch ('%' :: p) (x :: (a2 ++ s)) = true
    unfold likeMatch
    simp [ih h]

/-- C10 confirmed: after a feed candidate is successfully ingested, its
arxiv id is embedded in the stored `arxiv_link`, so ingesting any candidate
with the same id finds it by the `LIKE '%id%'` lookup, skips it, leaves the
store at one record for that id, and adds nothing to the added count. -/
theorem C10_dedup (insertOk : Candidate → Bool) (today now : String)
    (store : List StoredPaper) (t : CollectTally) (item : FeedPaper)
    (c2 : Candidate)
    (hid : c2.arxiv_id = item.id)
    (hnew : paper_exists store (hfCandidate item).arxiv_id = false)
    (hok : insertOk (hfCandidate item) = true) :
    (collectStep insertOk today now (store, t) (hfCandidate item)).1.length
        = store.length + 1
    ∧ collectStep insertOk today now
        (collectStep insertOk today now (store, t) (hfCandidate item)) c2
      = ((collectStep insertOk today now (store, t) (hfCandidate item)).1,
         { (collectStep insertOk today now (store, t) (hfCandidate item)).2 with
             skipped_count :=
               (collectStep insertOk today now (store, t)
                 (hfCandidate item)).2.skipped_count + 1 }) := by
  have hstep1 : collectStep insertOk today now (store, t) (hfCandidate item)
      = (store ++ [mkStored today now (hfCandidate item)],
         { t with new_count := t.new_count + 1 }) := by
    simp [collectStep, hnew, add_paper_to_db, hok]
  constructor
  · rw [hstep1]
    simp
  · rw [hstep1]
    have hlike : likeMatch ('%' :: (c2.arxiv_id.data ++ ['%']))
        (mkStored today now (hfCandidate item)).arxiv_link.data = true := by
      show likeMatch ('%' :: (c2.arxiv_id.data ++ ['%']))
        ("https://arxiv.org/abs/" ++ item.id).data = true
      rw [String.data_append, hid]
      exact likeMatch_prepend _ (by simpa using likeMatch_self_pct item.id.data [])
    have hex : paper_exists (store ++ [mkStored today now (hfCandidate item)])
        c2.arxiv_id = true := by
      unfold paper_exists
      rw [List.any_append]
      simp [hlike]
    simp [collectStep, hex]

/-- C10 witness: the concrete feed candidate `candA` ingested twice into an
empty store. -/
theorem C10_witness :
    (collectStep (fun _ => true) "2024-01-02" "now" (([] : List StoredPaper), ⟨0, 0⟩)
        (hfCandidate ⟨"1234.56789", "Test Paper", ["A One"], "An abstract.",
          "2024-01-02"⟩)).1.length
      = ([] : List StoredPaper).length + 1 :=
  (C10_dedup (fun _ => true) "2024-01-02" "now" [] ⟨0, 0⟩
    ⟨"1234.56789", "Test Paper", ["A One"], "An abstract.", "2024-01-02"⟩
    (hfCandidate ⟨"1234.56789", "Test Paper", ["A One"], "An abstract.",
      "2024-01-02"⟩) rfl (by decide) rfl).1

/-! ## C7 — persistence of the not-relevant verdict -/

/-- C7 confirmed: when triage completes with `relevant = false` on a paper
that reaches triage, the orchestrator persists exactly the skip sentinel as
the summary and the triage rationale as the digest of that row, never calls
the summarizer, and leaves every other stored field of every row unchanged —
in particular the excitement score column is untouched, so an unscored paper
stays at 0. -/
theorem C7_skip_persist (B : Backend) (force : Bool) (now : String)
    (db : List PaperRow) (s : RunStats) (row : PaperRow) (tr : TriageResult)
    (hreach : (hasRealSummary (row.summary_md.getD "") && !force) = false)
    (htri : B.triage row.title row.abstract = Except.ok tr)
    (hrel : tr.relevant = false) :
    (processRow B force now db s row).1
        = updateRow db row.id (fun r =>
            { r with summary_md := some SKIP_SENTINEL, tldr := some tr.reason })
    ∧ (processRow B force now db s row).1.map frameFields = db.map frameFields
    ∧ (processRow B force now db s row).1.map PaperRow.excitement_score
        = db.map PaperRow.excitement_score
    ∧ (∀ r ∈ (processRow B force now db s row).1, r.id = row.id →
        r.summary_md = some SKIP_SENTINEL ∧ r.tldr = some tr.reason)
    ∧ (processRow B force now db s row).2.summarizeCalls = s.summarizeCalls
    ∧ (processRow B force now db s row).2.summarized = s.summarized := by
  have hstep : processRow B force now db s row
      = (updateRow db row.id (fun r =>
           { r with summary_md := some SKIP_SENTINEL, tldr := some tr.reason }),
         { s with
             triageCalls := s.triageCalls + 1
             triaged := s.triaged + 1
             triageTokens := s.triageTokens + tr.tokens.getD 0
             skipped := s.skipped + 1 }) := by
    simp [processRow, hreach, htri, hrel]
  refine ⟨by rw [hstep], ?_, ?_, ?_, by rw [hstep], by rw [hstep]⟩
  · rw [hstep]
    show (updateRow db row.id _).map frameFields = db.map frameFields
    unfold updateRow
    rw [List.map_map]
    apply List.map_congr_left
    intro r hr
    by_cases h : r.id = row.id <;> simp [h, frameFields]
  · rw [hstep]
    show (updateRow db row.id _).map PaperRow.excitement_score
        = db.map PaperRow.excitement_score
    unfold updateRow
    rw [List.map_map]
    apply List.map_congr_left
    intro r hr
    by_cases h : r.id = row.id <;> simp [h]
  · rw [hstep]
    intro r hr hid
    unfold updateRow at hr
    obtain ⟨r0, hr0, rfl⟩ := List.mem_map.mp hr
    by_cases h : r0.id = row.id
    · simp [h]
    · simp [h] at hid

/-- C7 witness: an unscored pending row and a not-relevant triage verdict;
the summarizer is not invoked. -/
theorem C7_witness :
    (processRow backendIrrelevant false "now" [rowPending] initStats
        rowPending).2.summarizeCalls
      = initStats.summarizeCalls :=
  (C7_skip_persist backendIrrelevant false "now" [rowPending] initStats rowPending
    ⟨false, "off topic", "gemini-1.5-flash", some 0⟩
    (by decide) rfl rfl).2.2.2.2.1

/-! ## C9 — per-paper failures never abort the batch -/

/-- C9 confirmed: when triage raises, the orchestrator proceeds directly to
the summarizer for that paper (one summarization attempt is made); when the
summarization then also raises, no row of the store is mutated — the paper
stays pending and re-selectable — and the batch continues with the remaining
papers from exactly that unchanged store. -/
theorem C9_failures_continue (B : Backend) (force : Bool) (now : String)
    (db : List PaperRow) (s : RunStats) (row : PaperRow) (e : String)
    (hreach : (hasRealSummary (row.summary_md.getD "") && !force) = false)
    (htri : B.triage row.title row.abstract = Except.error e) :
    (processRow B force now db s row).2.summarizeCalls = s.summarizeCalls + 1
    ∧ (∀ e2, B.summarize (promptFor row) = Except.error e2 →
        processRow B force now db s row
          = (db, { s with
                     triageCalls := s.triageCalls + 1
                     summarizeCalls := s.summarizeCalls + 1 })
        ∧ ∀ rest : List PaperRow,
            (row :: rest).foldl (runStep B force now) (db, s)
              = rest.foldl (runStep B force now)
                  (db, { s with
                           triageCalls := s.triageCalls + 1
                           summarizeCalls := s.summarizeCalls + 1 })) := by
  have hstep : processRow B force now db s row
      = summarizeStep B now db { s with triageCalls := s.triageCalls + 1 } row := by
    simp [processRow, hreach, htri]
  constructor
  · rw [hstep]
    unfold summarizeStep
    cases B.summarize (promptFor row) <;> simp
  · intro e2 hsum
    have hfull : processRow B force now db s row
        = (db, { s with
                   triageCalls := s.triageCalls + 1
                   summarizeCalls := s.summarizeCalls + 1 }) := by
      rw [hstep]
      unfold summarizeStep
      rw [hsum]
    refine ⟨hfull, ?_⟩
    intro rest
    simp only [List.foldl_cons, runStep]
    rw [hfull]

/-- C9 witness: both triage and summarization raise on a concrete pending
row; the store is returned unchanged. -/
theorem C9_witness :
    processRow backendBothFail false "now" [rowPending] initStats rowPending
      = ([rowPending], { initStats with triageCalls := 1, summarizeCalls := 1 }) :=
  ((C9_failures_continue backendBothFail false "now" [rowPending] initStats
      rowPending "Gemini down" (by decide) rfl).2 "provider down" rfl).1

/-! ## C2 — idempotence of the unforced pipeline -/

theorem mem_splitlinesAux (c : Char) (hn : c ≠ '\n') (hr : c ≠ '\r') :
    ∀ (l acc : List Char), c ∈ l ∨ c ∈ acc →
      ∃ line ∈ splitlinesAux l acc, c ∈ line := by
  intro l acc
  induction l, acc using splitlinesAux.induct with
  | case1 acc hacc =>
    intro h
    have hacc2 : acc = [] := List.isEmpty_iff.mp hacc
    subst hacc2
    rcases h with h | h <;> simp at h
  | case2 acc hacc =>
    intro h
    rcases h with h | h
    · simp at h
    · refine ⟨acc.reverse, ?_, by simpa using h⟩
      show acc.reverse ∈ splitlinesAux [] acc
      rw [splitlinesAux, if_neg hacc]
      simp
  | case3 rest acc ih =>
    intro h
    have hstep : splitlinesAux ('\r' :: '\n' :: rest) acc
        = acc.reverse :: splitlinesAux rest [] := rfl
    rw [hstep]
    rcases h with h | h
    · have hc : c ∈ rest := by
        rcases List.mem_cons.mp h with h1 | h1
        · exact absurd h1 hr
        rcases List.mem_cons.mp h1 with h2 | h2
        · exact absurd h2 hn
        · exact h2
      obtain ⟨line, hl, hcl⟩ := ih (Or.inl hc)
      exact ⟨line, List.mem_cons_of_mem _ hl, hcl⟩
    · exact ⟨acc.reverse, by simp, by simpa using h⟩
  | case4 rest acc hcond ih =>
    intro h
    have hstep : splitlinesAux ('\r' :: rest) acc
        = acc.reverse :: splitlinesAux rest [] :=
      splitlinesAux.eq_3 acc rest hcond
    rw [hstep]
    rcases h with h | h
    · have hc : c ∈ rest := by
        rcases List.mem_cons.mp h with h1 | h1
        · exact absurd h1 hr
        · exact h1
      obtain ⟨line, hl, hcl⟩ := ih (Or.inl hc)
      exact ⟨line, List.mem_cons_of_mem _ hl, hcl⟩
    · exact ⟨acc.reverse, by simp, by simpa using h⟩
  | case5 rest acc ih =>
    intro h
    have hstep : splitlinesAux ('\n' :: rest) acc
        = acc.reverse :: splitlinesAux rest [] := rfl
    rw [hstep]
    rcases h with h | h
    · have hc : c ∈ rest := by
        rcases List.mem_cons.mp h with h1 | h1
        · exact absurd h1 hn
        · exact h1
      obtain ⟨line, hl, hcl⟩ := ih (Or.inl hc)
      exact ⟨line, List.mem_cons_of_mem _ hl, hcl⟩
    · exact ⟨acc.reverse, by simp, by simpa using h⟩
  | case6 c0 rest acc hp1 hp2 hp3 ih =>
    intro h
    have hstep : splitlinesAux (c0 :: rest) acc = splitlinesAux rest (c0 :: acc) :=
      splitlinesAux.eq_5 acc c0 rest hp1 hp2 hp3
    rw [hstep]
    apply ih
    rcases h with h | h
    · rcases List.mem_cons.mp h with h1 | h1
      · exact Or.inr (h1 ▸ List.mem_cons_self _ _)
      · exact Or.inl h1
    · exact Or.inr (List.mem_cons_of_mem _ h)

theorem exists_nonblank_line {s : String}
    (h : ∃ c ∈ s.data, pyIsSpace c = false) :
    ∃ line ∈ linesOf s, line ≠ [] := by
  obtain ⟨c, hc, hp⟩ := h
  have hn : c ≠ '\n' := by
    intro e
    rw [e] at hp
    simp [pyIsSpace] at hp
  have hr : c ≠ '\r' := by
    intro e
    rw [e] at hp
    simp [pyIsSpace] at hp
  obtain ⟨raw, hraw, hcr⟩ :=
    mem_splitlinesAux c hn hr s.data [] (Or.inl hc)
  refine ⟨stripWith pyIsSpace raw, ?_, ?_⟩
  · exact List.mem_map_of_mem _ hraw
  · exact List.ne_nil_of_mem (mem_stripWith hcr hp)

theorem extract_tldr_eq_of_found {md : String} {t : List Char}
    (h : findTldr (linesOf md) = some t) : extract_tldr md = ⟨t⟩ := by
  simp [extract_tldr, h]

/-- Whenever the summarized document has any non-whitespace character, the
extracted digest survives SQLite trimming: the unforced selection will not
pick the row up again. -/
theorem sqlTrim_extract_tldr_ne {s : String}
    (h : ∃ c ∈ s.data, pyIsSpace c = false) :
    sqlTrim (extract_tldr s) ≠ "" := by
  obtain ⟨line0, hline0, hne0⟩ := exists_nonblank_line h
  cases hf : findTldr (linesOf s) with
  | some t =>
    rw [extract_tldr_eq_of_found hf]
    obtain ⟨htmem, htne⟩ := findTldr_some_mem hf
    unfold linesOf at htmem
    obtain ⟨raw, hraw, hteq⟩ := List.mem_map.mp htmem
    obtain ⟨c, hcmem, hcp⟩ := exists_not_of_stripWith_ne (by rw [hteq]; exact htne)
    rw [hteq] at hcmem
    exact sqlTrim_ne_empty hcmem (space_of_pyIsSpace_false hcp)
  | none =>
    obtain ⟨t, hfb⟩ := firstNonblank_isSome hline0 hne0
    have hres : extract_tldr s = ⟨t.take 280⟩ := by
      simp [extract_tldr, hf, hfb]
    rw [hres]
    obtain ⟨htmem, htne⟩ := firstNonblank_some_mem hfb
    unfold linesOf at htmem
    obtain ⟨raw, hraw, hteq⟩ := List.mem_map.mp htmem
    obtain ⟨c, r, rfl⟩ : ∃ c r, t = c :: r := by
      cases t with
      | nil => exact absurd rfl htne
      | cons c r => exact ⟨c, r, rfl⟩
    have hcp : pyIsSpace c = false := stripWith_cons_not hteq
    apply sqlTrim_ne_empty (c := c)
    · show c ∈ (c :: r).take 280
      rw [show (280 : Nat) = 279 + 1 from rfl, List.take_succ_cons]
      exact List.mem_cons_self _ _
    · exact space_of_pyIsSpace_false hcp

theorem updateRow_map_id (db : List PaperRow) (pid : Nat) (f : PaperRow → PaperRow)
    (hf : ∀ r, (f r).id = r.id) :
    (updateRow db pid f).map PaperRow.id = db.map PaperRow.id := by
  unfold updateRow
  rw [List.map_map]
  apply List.map_congr_left
  intro r hr
  by_cases h : r.id = pid <;> simp [h, hf]

theorem updateRow_mem_of_ne {db : List PaperRow} {pid : Nat}
    {f : PaperRow → PaperRow} {r : PaperRow}
    (hr : r ∈ db) (hne : r.id ≠ pid) : r ∈ updateRow db pid f := by
  unfold updateRow
  have heq : (if r.id == pid then f r else r) = r := by simp [hne]
  rw [← heq]
  exact List.mem_map_of_mem _ hr

theorem mem_updateRow {db : List PaperRow} {pid : Nat}
    {f : PaperRow → PaperRow} {r' : PaperRow}
    (h : r' ∈ updateRow db pid f) :
    ∃ r ∈ db, r' = if r.id = pid then f r else r := by
  unfold updateRow at h
  obtain ⟨r, hr, hr'⟩ := List.mem_map.mp h
  refine ⟨r, hr, ?_⟩
  rw [← hr']
  by_cases hc : r.id = pid <;> simp [hc]

/-- Case analysis of one unforced loop iteration under a well-behaved
backend: either the row already had a real summary and nothing changed, or
the store was updated at the row's id by an id-preserving function whose
result no longer needs a summary. -/
theorem processRow_cases (B : Backend) (now : String) (db : List PaperRow)
    (s : RunStats) (row : PaperRow)
    (HB1 : ∀ t a tr, B.triage t a = Except.ok tr → tr.relevant = false →
        sqlTrim tr.reason ≠ "")
    (HB2 : ∀ p, ∃ resp, B.summarize p = Except.ok resp ∧
        pyStrip (resp.text.getD "") ≠ "") :
    ((processRow B false now db s row).1 = db
      ∧ hasRealSummary (row.summary_md.getD "") = true)
    ∨ (∃ f : PaperRow → PaperRow,
        (processRow B false now db s row).1 = updateRow db row.id f
        ∧ (∀ r, (f r).id = r.id)
        ∧ (∀ r, needsSummary (f r) = false)) := by
  cases hreal : hasRealSummary (row.summary_md.getD "") with
  | true =>
    left
    refine ⟨?_, rfl⟩
    simp [processRow, hreal]
  | false =>
    right
    obtain ⟨resp, hsum, htext⟩ := HB2 (promptFor row)
    have hmd : sqlTrim (pyStrip (resp.text.getD "")) ≠ "" :=
      sqlTrim_pyStrip_ne htext
    have hmdchar : ∃ c ∈ (pyStrip (resp.text.getD "")).data, pyIsSpace c = false := by
      have hne : stripWith pyIsSpace (resp.text.getD "").data ≠ [] := by
        intro hnil
        exact htext (by simp [pyStrip, hnil])
      exact exists_not_of_stripWith_ne hne
    have htl : sqlTrim (extract_tldr (pyStrip (resp.text.getD ""))) ≠ "" :=
      sqlTrim_extract_tldr_ne hmdchar
    cases htri : B.triage row.title row.abstract with
    | ok tr =>
      cases hrel : tr.relevant with
      | false =>
        refine ⟨fun r => { r with summary_md := some SKIP_SENTINEL,
                                  tldr := some tr.reason }, ?_, ?_, ?_⟩
        · simp [processRow, hreal, htri, hrel]
        · intro r
          rfl
        · intro r
          have hsent : sqlTrim SKIP_SENTINEL ≠ "" := by decide
          have hreason := HB1 row.title row.abstract tr htri hrel
          simp [needsSummary, hsent, hreason]
      | true =>
        refine ⟨fun r => { r with
            summary_md := some (pyStrip (resp.text.getD ""))
            tldr := some (extract_tldr (pyStrip (resp.text.getD "")))
            model_used := some resp.model
            summary_tokens := resp.tokens
            last_summarized_at := some now }, ?_, ?_, ?_⟩
        · simp [processRow, hreal, htri, hrel, summarizeStep, hsum, save_summary]
        · intro r
          rfl
        · intro r
          simp [needsSummary, hmd, htl]
    | error e =>
      refine ⟨fun r => { r with
          summary_md := some (pyStrip (resp.text.getD ""))
          tldr := some (extract_tldr (pyStrip (resp.text.getD "")))
          model_used := some resp.model
          summary_tokens := resp.tokens
          last_summarized_at := some now }, ?_, ?_, ?_⟩
      · simp [processRow, hreal, htri, summarizeStep, hsum, save_summary]
      · intro r
        rfl
      · intro r
        simp [needsSummary, hmd, htl]

/-- After the first unforced run, every row that still satisfies the unforced
selection predicate already carried a real summary (and was therefore
skipped, not processed). -/
theorem run1_settles (B : Backend) (now : String)
    (HB1 : ∀ t a tr, B.triage t a = Except.ok tr → tr.relevant = false →
        sqlTrim tr.reason ≠ "")
    (HB2 : ∀ p, ∃ resp, B.summarize p = Except.ok resp ∧
        pyStrip (resp.text.getD "") ≠ "") :
    ∀ (sel : List PaperRow) (db : List PaperRow) (s : RunStats),
      (∀ row ∈ sel, row ∈ db) →
      (sel.map PaperRow.id).Nodup →
      (db.map PaperRow.id).Nodup →
      (∀ r ∈ db, needsSummary r = true →
        hasRealSummary (r.summary_md.getD "") = true ∨ r.id ∈ sel.map PaperRow.id) →
      ∀ r ∈ (sel.foldl (runStep B false now) (db, s)).1,
        needsSummary r = true → hasRealSummary (r.summary_md.getD "") = true := by
  intro sel
  induction sel with
  | nil =>
    intro db s hmem hnodsel hnoddb hinv r hr hneed
    rcases hinv r hr hneed with h | h
    · exact h
    · simp at h
  | cons row rest ih =>
    intro db s hmem hnodsel hnoddb hinv
    simp only [List.foldl_cons]
    have hrowdb : row ∈ db := hmem row (List.mem_cons_self _ _)
    have htail : (rest.map PaperRow.id).Nodup :=
      (List.nodup_cons.mp (by simpa using hnodsel)).2
    have hhead : row.id ∉ rest.map PaperRow.id :=
      (List.nodup_cons.mp (by simpa using hnodsel)).1
    rcases processRow_cases B now db s row HB1 HB2 with ⟨hdb, hreal⟩ | ⟨f, hdb, hfid, hfneed⟩
    · have hpair : runStep B false now (db, s) row
          = (db, (processRow B false now db s row).2) :=
        Prod.ext hdb rfl
      rw [hpair]
      apply ih db (processRow B false now db s row).2
      · intro r0 hr0
        exact hmem r0 (List.mem_cons_of_mem _ hr0)
      · exact htail
      · exact hnoddb
      · intro r hr hneed
        rcases hinv r hr hneed with h | h
        · exact Or.inl h
        · rw [List.map_cons] at h
          rcases List.mem_cons.mp h with heq | hmr
          · have hrr : r = row :=
              List.inj_on_of_nodup_map hnoddb hr hrowdb heq
            exact Or.inl (by rw [hrr]; exact hreal)
          · exact Or.inr hmr
    · have hpair : runStep B false now (db, s) row
          = (updateRow db row.id f, (processRow B false now db s row).2) :=
        Prod.ext hdb rfl
      rw [hpair]
      apply ih (updateRow db row.id f) (processRow B false now db s row).2
      · intro r0 hr0
        have hr0db : r0 ∈ db := hmem r0 (List.mem_cons_of_mem _ hr0)
        have hner : r0.id ≠ row.id := by
          intro he
          exact hhead (he ▸ List.mem_map_of_mem PaperRow.id hr0)
        exact updateRow_mem_of_ne hr0db hner
      · exact htail
      · rw [updateRow_map_id db row.id f hfid]
        exact hnoddb
      · intro r' hr' hneed'
        obtain ⟨r, hr, hform⟩ := mem_updateRow hr'
        by_cases hcase : r.id = row.id
        · exfalso
          rw [hform, if_pos hcase, hfneed r] at hneed'
          exact Bool.false_ne_true hneed'
        · rw [hform, if_neg hcase] at hneed' ⊢
          rcases hinv r hr hneed' with h | h
          · exact Or.inl h
          · rw [List.map_cons] at h
            rcases List.mem_cons.mp h with heq | hmr
            · exact absurd heq hcase
            · exact Or.inr hmr

/-- A batch all of whose snapshots carry a real summary is a no-op in
unforced mode: no store mutation and no change to any counter. -/
theorem run_noop (B : Backend) (now : String) :
    ∀ (rows : List PaperRow) (db : List PaperRow) (s : RunStats),
      (∀ row ∈ rows, hasRealSummary (row.summary_md.getD "") = true) →
      rows.foldl (runStep B false now) (db, s) = (db, s) := by
  intro rows
  induction rows with
  | nil => intro db s h; rfl
  | cons row rest ih =>
    intro db s h
    simp only [List.foldl_cons]
    have hstep : runStep B false now (db, s) row = (db, s) := by
      show processRow B false now db s row = (db, s)
      simp [processRow, h row (List.mem_cons_self _ _)]
    rw [hstep]
    exact ih db s (fun r hr => h r (List.mem_cons_of_mem _ hr))

/-- C2 counterexample: a deterministic backend whose summarizer always
raises (an unchanged backend across both runs) leaves the pending row
unpersisted after the first run; the second unforced run then repeats one
triage call and one summarization call, refuting "no LLM calls on the
second run". -/
theorem C2_counterexample :
    (runMain backendSummarizeFail "now2" [] false 10
        (runMain backendSummarizeFail "now1" [] false 10 [rowPending]).1).2.summarizeCalls = 1
    ∧ (runMain backendSummarizeFail "now2" [] false 10
        (runMain backendSummarizeFail "now1" [] false 10 [rowPending]).1).2.triageCalls = 1
    ∧ (1 : Nat) ≠ 0 := by
  refine ⟨by decide, by decide, by decide⟩

/-- C2 amended: running the unforced pipeline twice over the same store with
the same deterministic backend makes no LLM calls on the second run — and
writes nothing — provided the pending backlog fits within one batch and the
first run is failure-free in the persisted sense: every not-relevant triage
verdict carries a rationale that survives SQL trimming, and every
summarization call succeeds with text that is non-blank after stripping.
(Without these provisos the claim fails: a failed or blank summarization
leaves the row pending and re-selectable, and a backlog beyond the batch
limit leaves unprocessed rows for the second run.) -/
theorem C2_amended (B : Backend) (now1 now2 : String) (batch : Nat)
    (db : List PaperRow)
    (hids : (db.map PaperRow.id).Nodup)
    (hcount : (db.filter needsSummary).length ≤ batch)
    (HB1 : ∀ t a tr, B.triage t a = Except.ok tr → tr.relevant = false →
        sqlTrim tr.reason ≠ "")
    (HB2 : ∀ p, ∃ resp, B.summarize p = Except.ok resp ∧
        pyStrip (resp.text.getD "") ≠ "") :
    (runMain B now2 [] false batch (runMain B now1 [] false batch db).1).2.triageCalls = 0
    ∧ (runMain B now2 [] false batch (runMain B now1 [] false batch db).1).2.summarizeCalls = 0
    ∧ (runMain B now2 [] false batch (runMain B now1 [] false batch db).1).1
        = (runMain B now1 [] false batch db).1 := by
  have hfetch : ∀ d : List PaperRow, fetch_papers d [] false batch
      = (List.insertionSort byIdDesc (d.filter needsSummary)).take batch := by
    intro d
    simp [fetch_papers]
  have hperm := List.perm_insertionSort byIdDesc (db.filter needsSummary)
  have hsel1 : fetch_papers db [] false batch
      = List.insertionSort byIdDesc (db.filter needsSummary) := by
    rw [hfetch]
    apply List.take_of_length_le
    rw [hperm.length_eq]
    exact hcount
  have hrun1 : runMain B now1 [] false batch db
      = (List.insertionSort byIdDesc (db.filter needsSummary)).foldl
          (runStep B false now1) (db, initStats) := by
    unfold runMain
    rw [hsel1]
  have hinv1 : ∀ r ∈ (runMain B now1 [] false batch db).1,
      needsSummary r = true → hasRealSummary (r.summary_md.getD "") = true := by
    rw [hrun1]
    apply run1_settles B now1 HB1 HB2
    · intro row hrow
      exact (List.mem_filter.mp (hperm.mem_iff.mp hrow)).1
    · have h1 : ((db.filter needsSummary).map PaperRow.id).Nodup :=
        hids.sublist (List.Sublist.map PaperRow.id (List.filter_sublist db))
      exact ((hperm.map PaperRow.id).nodup_iff).mpr h1
    · exact hids
    · intro r hr hneed
      right
      exact List.mem_map_of_mem PaperRow.id
        (hperm.mem_iff.mpr (List.mem_filter.mpr ⟨hr, hneed⟩))
  have hsel2 : ∀ row ∈ fetch_papers (runMain B now1 [] false batch db).1 [] false batch,
      hasRealSummary (row.summary_md.getD "") = true := by
    intro row hrow
    rw [hfetch] at hrow
    have h1 := List.take_subset batch _ hrow
    have h2 := (List.perm_insertionSort byIdDesc _).mem_iff.mp h1
    obtain ⟨hmem, hneed⟩ := List.mem_filter.mp h2
    exact hinv1 row hmem hneed
  have hrun2 : runMain B now2 [] false batch (runMain B now1 [] false batch db).1
      = ((runMain B now1 [] false batch db).1, initStats) := by
    unfold runMain
    exact run_noop B now2 _ _ _ hsel2
  rw [hrun2]
  exact ⟨rfl, rfl, rfl⟩

/-- C2 witness: the amended idempotence at a concrete one-row store and a
backend that triages everything relevant and summarizes successfully. -/
theorem C2_witness :
    (runMain backendRelevantOk "now2" [] false 10
        (runMain backendRelevantOk "now1" [] false 10 [rowPending]).1).2.triageCalls = 0 :=
  (C2_amended backendRelevantOk "now1" "now2" 10 [rowPending] (by decide) (by decide)
    (by
      intro t a tr h hf
      injection h with h2
      rw [← h2] at hf
      simp at hf)
    (by
      intro p
      exact ⟨⟨some "# TLDR\nGreat paper.", some 9, "gpt-4o"⟩, rfl, by decide⟩)).1

end ReasoningHub
